import Mathlib

/-!
Verification of the lmql model-descriptor resolver (`src/lmql/api/llm.py`)
and the transformers generation backend
(`src/lmql/models/lmtp/backends/transformers_model.py`).

The Python code is shallowly embedded: keyword options become association
lists of string keys and values, the filesystem and the alias table become
explicit parameters of the resolver, and Python exceptions become `Except`.
-/

namespace Lmql

/-! ## String primitives

Python string operations used by the resolver, implemented over the
character list of a `String` so that they evaluate by kernel reduction. -/

/-- Python `s.startswith(p)`. -/
def strStarts (s p : String) : Bool :=
  p.data.isPrefixOf s.data

/-- Python `s[n:]`. -/
def strDrop (s : String) (n : Nat) : String :=
  ⟨s.data.drop n⟩

/-- Fuel-indexed worker for `strReplace`: replaces non-overlapping
occurrences of `pat` left to right, as Python `str.replace` does. -/
def strReplaceAux (pat rep : List Char) : Nat → List Char → List Char
  | 0, l => l
  | _ + 1, [] => []
  | fuel + 1, c :: cs =>
    if pat ≠ [] ∧ pat.isPrefixOf (c :: cs) then
      rep ++ strReplaceAux pat rep fuel ((c :: cs).drop pat.length)
    else
      c :: strReplaceAux pat rep fuel cs

/-- Python `s.replace(pat, rep)` (all non-overlapping occurrences). -/
def strReplace (s pat rep : String) : String :=
  ⟨strReplaceAux pat.data rep.data s.data.length s.data⟩

/-- Python `os.path.dirname` (posix): everything up to the last `/`,
with trailing slashes stripped unless the head is all slashes. -/
def dirname (s : String) : String :=
  let l := s.data
  match l.reverse.findIdx? (fun c => c == '/') with
  | none => ""
  | some j =>
    let head := l.take (l.length - j)
    if head.any (fun c => c ≠ '/') then
      ⟨(head.reverse.dropWhile (fun c => c == '/')).reverse⟩
    else
      ⟨head⟩

/-- Python `os.path.join(a, b)` (posix, two arguments). -/
def pathJoin (a b : String) : String :=
  if strStarts b "/" then b
  else if a == "" then b
  else if a.data.getLast? == some '/' then ⟨a.data ++ b.data⟩
  else ⟨a.data ++ '/' :: b.data⟩

/-! ## Option values and keyword-option dictionaries -/

/-- A Python keyword-argument value as the resolver uses them:
a string or a boolean. -/
inductive Val where
  | str (s : String)
  | bool (b : Bool)
deriving DecidableEq, Repr

/-- Python `f"{v}"`. -/
def Val.render : Val → String
  | .str s => s
  | .bool b => if b then "True" else "False"

/-- Python truthiness of a value. -/
def Val.truthy : Val → Bool
  | .str s => !s.isEmpty
  | .bool b => b

/-- Keyword options (`**kwargs`): an insertion-ordered dictionary. -/
abbrev Opts := List (String × Val)

/-- Python `d.get(k)` / `k in d`. -/
def getOpt : Opts → String → Option Val
  | [], _ => none
  | (a, b) :: rest, k => if a == k then some b else getOpt rest k

/-- Python `d[k] = v`: replace in place if present (keeping insertion
order), else append. -/
def setOpt : Opts → String → Val → Opts
  | [], k, v => [(k, v)]
  | (a, b) :: rest, k, v =>
    if a == k then (a, v) :: rest else (a, b) :: setOpt rest k v

/-- Python `d.pop(k, None)`: the value (if any) and the dictionary
without the key. -/
def popOpt (o : Opts) (k : String) : Option Val × Opts :=
  (getOpt o k, o.filter (fun p => p.1 != k))

/-- Python `kwargs.get("inprocess", False)` truthiness. -/
def truthyOpt (o : Option Val) : Bool :=
  (o.getD (.bool false)).truthy

/-- Python join of the rendered key=value pairs with a comma and a
space (llm.py line 171). -/
def renderOpts (o : Opts) : String :=
  String.intercalate ", " (o.map (fun p => p.1 ++ "=" ++ p.2.render))

/-! ## Adapters and the LLM handle -/

/-- The concrete adapter constructions the resolver can perform
(`openai_model`, `inprocess`, `lmtp_model`), recorded with the arguments
they were called with. The constructors themselves are external to the
repository. -/
inductive Adapter where
  | openai (name : String) (endpoint : Option Val) (opts : Opts)
  | inprocessLocal (name : String) (opts : Opts)
  | lmtpRemote (name : String) (endpoint : Val) (opts : Opts)
deriving DecidableEq, Repr

/-- The `LLM` handle (llm.py lines 65-81): a model identifier, an adapter
and the configuration string. -/
structure LLM where
  model_identifier : String
  adapter : Adapter
  configuration_string : String
deriving DecidableEq, Repr

/-- The resolver input `model_identifier : Union[str, LLM]`, with `none`
for Python `None`. -/
inductive Descriptor where
  | name (s : Option String)
  | handle (m : LLM)
deriving DecidableEq, Repr

/-- External state the resolver consults: the alias table
(`lmql.models.aliases.model_name_aliases`), the filesystem
(`os.path.exists`) and the process-wide default model. -/
structure ResolveEnv where
  aliases : List (String × String)
  fsExists : String → Bool
  defaultModel : Sum String LLM

/-- Alias substitution (llm.py lines 166-167). -/
def aliasResolve (aliases : List (String × String)) (id : String) : String :=
  match aliases.find? (fun p => p.1 == id) with
  | some p => p.2
  | none => id

/-- The `"random"` special case (llm.py lines 191-194). -/
def randomKwargs (kwargs : Opts) : Opts :=
  let tok := match getOpt kwargs "vocab" with
    | some v => v
    | none => .str "gpt2"
  setOpt (setOpt (setOpt kwargs "tokenizer" tok) "inprocess" (.bool true))
    "async_transport" (.bool true)

/-- The candidate tokenizer path derived for a `llama.cpp:` identifier
(llm.py line 201). -/
def llamaTokenizerCandidate (id : String) : String :=
  pathJoin (dirname (strReplace id "llama.cpp:" "")) "tokenizer.model"

/-- The warning emitted when the candidate tokenizer file is missing
(llm.py line 205). -/
def llamaWarning : String :=
  "File tokenizer.model not present in the same folder as the model weights. Using default 'huggyllama/llama-7b' tokenizer for all llama.cpp models. To change this, set the 'tokenizer' argument of your lmql.model(...) object."

/-- The `llama.cpp:` special case (llm.py lines 197-206): the adjusted
options and the warnings emitted. -/
def llamaAdjust (env : ResolveEnv) (id2 : String) (kwargs : Opts) :
    Opts × List String :=
  if strStarts id2 "llama.cpp:" then
    if (getOpt kwargs "tokenizer").isSome then (kwargs, [])
    else if env.fsExists (llamaTokenizerCandidate id2) then
      (setOpt kwargs "tokenizer" (.str (llamaTokenizerCandidate id2)), [])
    else
      (setOpt kwargs "tokenizer" (.str "huggyllama/llama-7b"), [llamaWarning])
  else (kwargs, [])

/-- The string-identifier part of `LLM.from_descriptor`
(llm.py lines 169-222), entered after alias substitution. Returns the
handle and the warnings emitted; `Except` models Python exceptions. -/
def resolve_string (env : ResolveEnv) (id1 : String) (kwargs : Opts) :
    Except String (LLM × List String) :=
  let original_name := id1
  let configuration_representation := renderOpts kwargs
  match (if id1 == "<dynamic>" then env.defaultModel else Sum.inl id1) with
  | .inr _ => .error "AttributeError: LLM object has no attribute startswith"
  | .inl id2 =>
    let ek := popOpt kwargs "endpoint"
    let endpoint := ek.1
    let kwargs1 := ek.2
    if strStarts id2 "openai/" then
      .ok (⟨original_name, .openai (strDrop id2 7) endpoint kwargs1,
            configuration_representation⟩, [])
    else
      let kwargs2 := if id2 == "random" then randomKwargs kwargs1 else kwargs1
      let kw := llamaAdjust env id2 kwargs2
      let endpointVal := endpoint.getD (.str "localhost:8080")
      let ik :=
        if strStarts id2 "local:" then
          (strDrop id2 6, setOpt kw.1 "inprocess" (.bool true))
        else (id2, kw.1)
      let adapter :=
        if truthyOpt (getOpt ik.2 "inprocess") then
          Adapter.inprocessLocal ik.1 ik.2
        else
          Adapter.lmtpRemote ik.1 endpointVal ik.2
      .ok (⟨original_name, adapter, configuration_representation⟩, kw.2)

/-- Substitution of the dynamic sentinel or a missing identifier by the
process-wide default model (llm.py lines 156-157). -/
def descrOfDefault : Sum String LLM → Descriptor
  | .inl s => .name (some s)
  | .inr m => .handle m

/-- The resolver `LLM.from_descriptor` (llm.py lines 148-222). -/
def from_descriptor (env : ResolveEnv) (d : Descriptor) (kwargs : Opts) :
    Except String (LLM × List String) :=
  let d1 := match d with
    | .name none => descrOfDefault env.defaultModel
    | .name (some s) =>
      if s == "<dynamic>" then descrOfDefault env.defaultModel
      else .name (some s)
    | .handle m => .handle m
  match d1 with
  | .handle m => .ok (m, [])
  | .name none => .error "AssertionError"
  | .name (some id0) => resolve_string env (aliasResolve env.aliases id0) kwargs

/-! ## `LLM.generate` result handling -/

/-- The outcome of `LLM.generate` (llm.py lines 106-113) as a function of
the query's result list, which the external query runtime supplies. -/
inductive GenOutcome (α : Type) where
  | error (msg : String)
  | single (a : α)
  | many (l : List α)
deriving DecidableEq

/-- llm.py lines 106-113: an empty result list raises `ValueError`, a
singleton returns its element, anything longer is returned whole. -/
def generate_result {α : Type} : List α → GenOutcome α
  | [] => .error "No result returned from query"
  | [a] => .single a
  | l => .many l

/-- Whether a generate outcome is the raised error. -/
def GenOutcome.isError {α : Type} : GenOutcome α → Bool
  | .error _ => true
  | _ => false

/-! ## The transformers generation backend

Embedding of `src/lmql/models/lmtp/backends/transformers_model.py`.
Tensors become lists of reals; the model's forward pass and the
HuggingFace decoding loop are opaque collaborators and appear as
parameters (the loop is modelled from the spec, §4.3). -/

/-- Torch log_softmax along the last dimension:
`(log_softmax x)_i = x_i - log (Σ_j exp x_j)`. -/
noncomputable def logSoftmax (xs : List ℝ) : List ℝ :=
  xs.map (fun x => x - Real.log ((xs.map Real.exp).sum))

/-- The per-sequence part of `TransformersLLM.score`
(transformers_model.py lines 58-62): drop the last logits row, log-softmax
each row, gather at the observed next token, prepend `0.0`. -/
noncomputable def scoreRow (ids : List ℕ) (logits : List (List ℝ)) : List ℝ :=
  0 :: ((logits.dropLast.map logSoftmax).zip ids.tail).map
    (fun q => q.1.getD q.2 0)

/-- The method `TransformersLLM.score` (transformers_model.py
lines 41-62). Here `model` is
the opaque forward pass, mapping the whole batch to one logits row per
input position; the definition invokes it exactly once. -/
noncomputable def score (model : List (List ℕ) → List (List (List ℝ)))
    (input_ids : List (List ℕ)) : List (List ℝ) :=
  let logits := model input_ids
  (input_ids.zip logits).map (fun p => scoreRow p.1 p.2)

/-- The wrapper `TokenStreamerDisguisedAsStoppingCriterion.__call__`
(transformers_model.py lines 104-110): forward the step state to the
streamer (a state-updating observer) and report "do not stop". -/
def disguisedCriterion {σ : Type} (streamer : List ℕ → List ℝ → σ → σ)
    (ids : List ℕ) (scores : List ℝ) (s : σ) : σ × Bool :=
  (streamer ids scores s, false)

/-- Modelled from the spec: the opaque `model.generate` decoding loop of
the transformers library (not part of this repository). Per §4.3 it
appends the next token each step, invokes the stopping criterion once per
step with the current sequence and the step scores, and stops at
`max_new_tokens`, at the end-of-sequence token, or when the criterion
returns true. `next` is the deterministic (temperature 0) next-token and
scores function. -/
def decodeLoop {σ : Type} (next : List ℕ → ℕ × List ℝ) (eos : ℕ)
    (crit : List ℕ → List ℝ → σ → σ × Bool) :
    ℕ → List ℕ → σ → List ℕ × σ
  | 0, ids, s => (ids, s)
  | n + 1, ids, s =>
    let step := next ids
    let ids' := ids ++ [step.1]
    let cs := crit ids' step.2 s
    if cs.2 || (step.1 == eos) then (ids', cs.1)
    else decodeLoop next eos crit n ids' cs.1

/-- Modelled from the spec: `LMTPModel.make_bias_tensor` (defined in
`lmtp_model.py`, which is not part of the repository). Per §4.4: a dense
array of length `vocab_size`, `0.0` everywhere except at ids present in
the bias set, where it holds the supplied adjustment. -/
def make_bias_tensor (logit_biases : List (ℕ × ℝ)) (vocab_size : ℕ) :
    List ℝ :=
  (List.range vocab_size).map (fun i =>
    match logit_biases.find? (fun p => p.1 == i) with
    | some p => p.2
    | none => 0)

/-- The closure state of `BatchLogitsProcessor`
(transformers_model.py lines 87, 95-98): the memoized dense bias tensor,
plus a counter instrumenting how often `make_bias_tensor` ran. -/
structure ProcState where
  bias_tensors : Option (List ℝ)
  builds : ℕ

/-- One `BatchLogitsProcessor.__call__` (transformers_model.py
lines 94-100) on a step's score batch (one row per batch element): build
the dense bias tensor if not yet built, then return
`log_softmax(scores + bias_tensors)`. -/
noncomputable def processorCall (logit_biases : List (ℕ × ℝ))
    (st : ProcState) (scores : List (List ℝ)) : ProcState × List (List ℝ) :=
  match st.bias_tensors with
  | some t =>
    (st, scores.map (fun row => logSoftmax (row.zipWith (fun a b => a + b) t)))
  | none =>
    let t := make_bias_tensor logit_biases (scores.headD []).length
    (⟨some t, st.builds + 1⟩,
     scores.map (fun row => logSoftmax (row.zipWith (fun a b => a + b) t)))

/-- The decoding loop's per-step invocations of the one logits processor
across a whole `generate` call: thread the processor state through the
given list of per-step score batches. -/
noncomputable def runSteps (logit_biases : List (ℕ × ℝ)) :
    List (List (List ℝ)) → ProcState → ProcState × List (List (List ℝ))
  | [], st => (st, [])
  | sc :: rest, st =>
    let r := processorCall logit_biases st sc
    let rs := runSteps logit_biases rest r.1
    (rs.1, r.2 :: rs.2)

/-- A `BatchLogitsProcessor` value as `logits_processors` returns it:
its captured bias set and its closure state. -/
structure BatchLogitsProcessor where
  logit_biases : List (ℕ × ℝ)
  state : ProcState

/-- The method `TransformersLLM.logits_processors` (transformers_model.py
lines 86-102): the empty list when the bias set is empty, else one fresh
`BatchLogitsProcessor` with an unbuilt tensor. -/
def logits_processors (logit_biases : List (ℕ × ℝ)) :
    List BatchLogitsProcessor :=
  if logit_biases.length = 0 then []
  else [⟨logit_biases, ⟨none, 0⟩⟩]

/-- Modelled from the spec: how the opaque decoding loop applies its
`logits_processor` list to one step's scores — each processor transforms
the scores in order (the identity when the list is empty). -/
noncomputable def applyProcessors :
    List BatchLogitsProcessor → List (List ℝ) →
    List BatchLogitsProcessor × List (List ℝ)
  | [], scores => ([], scores)
  | p :: rest, scores =>
    let r := processorCall p.logit_biases p.state scores
    let rs := applyProcessors rest r.2
    (⟨p.logit_biases, r.1⟩ :: rs.1, rs.2)

end Lmql

namespace Lmql

/-! ## Dictionary lemmas -/

theorem getOpt_setOpt_self (o : Opts) (k : String) (v : Val) :
    getOpt (setOpt o k v) k = some v := by
  induction o with
  | nil => simp [setOpt, getOpt]
  | cons p rest ih =>
    obtain ⟨a, b⟩ := p
    by_cases h : a = k
    · simp [setOpt, getOpt, h]
    · simp [setOpt, getOpt, h, ih]

theorem getOpt_setOpt_ne (o : Opts) (k k' : String) (v : Val)
    (hne : k ≠ k') : getOpt (setOpt o k' v) k = getOpt o k := by
  induction o with
  | nil =>
    have h2 : (k' == k) = false := by simp [Ne.symm hne]
    simp [setOpt, getOpt, h2]
  | cons p rest ih =>
    obtain ⟨a, b⟩ := p
    by_cases h : a = k'
    · simp [setOpt, getOpt, h, Ne.symm hne]
    · by_cases h3 : a = k
      · simp [setOpt, getOpt, h, h3, hne]
      · simp [setOpt, getOpt, h, h3, ih]

theorem getOpt_filter_ne (o : Opts) (k k' : String) (hne : k ≠ k') :
    getOpt (o.filter (fun p => p.1 != k')) k = getOpt o k := by
  induction o with
  | nil => simp [getOpt]
  | cons p rest ih =>
    obtain ⟨a, b⟩ := p
    by_cases h : a = k'
    · simp [getOpt, h, ih, Ne.symm hne]
    · by_cases h3 : a = k <;> simp [getOpt, h, h3, ih, hne]

/-! ## Resolver lemmas -/

/-- Every handle `resolve_string` constructs carries the identifier it was
entered with and the configuration string rendered from the unconsumed
caller options. -/
theorem resolve_string_fields (env : ResolveEnv) (id1 : String)
    (kwargs : Opts) (m : LLM) (w : List String)
    (hok : resolve_string env id1 kwargs = .ok (m, w)) :
    m.model_identifier = id1 ∧ m.configuration_string = renderOpts kwargs := by
  unfold resolve_string at hok
  split at hok
  · exact absurd hok (by simp)
  · split at hok
    · simp only [Except.ok.injEq, Prod.mk.injEq] at hok
      obtain ⟨hm, -⟩ := hok
      subst hm
      exact ⟨rfl, rfl⟩
    · simp only [Except.ok.injEq, Prod.mk.injEq] at hok
      obtain ⟨hm, -⟩ := hok
      subst hm
      exact ⟨rfl, rfl⟩

/-! ## Claim theorems: the resolver -/

/-- C8: passing an already-constructed `LLM` handle to the resolver
returns that identical handle unchanged — no adapter reconstruction, no
warning, no mutation. -/
theorem handle_passthrough_idempotent (env : ResolveEnv) (m : LLM)
    (kwargs : Opts) :
    from_descriptor env (.handle m) kwargs = .ok (m, []) := rfl

/-- C9: `LLM.generate` raises its error exactly when the underlying query
yields zero results; an empty result list is never returned as an empty
success and a nonempty one never errors. -/
theorem generate_errors_iff_empty {α : Type} (result : List α) :
    (generate_result result).isError = true ↔ result = [] := by
  cases result with
  | nil => simp [generate_result, GenOutcome.isError]
  | cons a l => cases l <;> simp [generate_result, GenOutcome.isError]

/-- C5: for every string-identifier resolution, the configuration string
stored in the resulting handle is the caller-supplied options rendered as
key=value pairs in insertion order joined by ", ", computed before any
option (such as endpoint) is popped or forced; no options render as the
empty configuration string. -/
theorem configuration_string_reflects_caller (env : ResolveEnv)
    (id : String) (kwargs : Opts) (m : LLM) (w : List String)
    (hdyn : (id == "<dynamic>") = false)
    (hok : from_descriptor env (.name (some id)) kwargs = .ok (m, w)) :
    m.configuration_string = renderOpts kwargs ∧
      renderOpts ([] : Opts) = "" := by
  refine ⟨?_, rfl⟩
  simp only [from_descriptor, hdyn, Bool.false_eq_true, if_false] at hok
  exact (resolve_string_fields env (aliasResolve env.aliases id) kwargs m w hok).2

/-- C5 witness: a concrete resolution whose options are partly consumed
(endpoint popped) and partly forced (inprocess), yet the stored
configuration string renders exactly the caller's options. -/
theorem configuration_string_reflects_caller_witness :
    (⟨"local:foo",
        .inprocessLocal "foo" [("a", .str "1"), ("inprocess", .bool true)],
        "a=1, endpoint=h:1"⟩ : LLM).configuration_string
        = renderOpts [("a", .str "1"), ("endpoint", .str "h:1")] ∧
      renderOpts ([] : Opts) = "" :=
  configuration_string_reflects_caller ⟨[], fun _ => false, Sum.inl "x"⟩
    "local:foo" [("a", .str "1"), ("endpoint", .str "h:1")]
    ⟨"local:foo",
      .inprocessLocal "foo" [("a", .str "1"), ("inprocess", .bool true)],
      "a=1, endpoint=h:1"⟩ [] rfl rfl

/-- C1 counterexample: with the alias table mapping "a" to "b", resolving
"a" stores "b" — the alias-resolved identifier — in the handle, not the
caller-supplied pre-alias string "a". -/
theorem pre_alias_name_stored_counterexample :
    (from_descriptor ⟨[("a", "b")], fun _ => false, Sum.inl "x"⟩
          (.name (some "a")) []).toOption.map
        (fun p => p.1.model_identifier)
      = some "b" ∧ ("b" : String) ≠ "a" :=
  ⟨rfl, by decide⟩

/-- C1 (amended): for an identifier present in the alias table, resolution
substitutes the aliased identifier for backend dispatch, and the resulting
handle's stored model identifier is that alias-resolved identifier (not
the pre-alias string the caller supplied). -/
theorem alias_resolved_identifier_stored (env : ResolveEnv) (id : String)
    (e : String × String) (kwargs : Opts) (m : LLM) (w : List String)
    (hdyn : (id == "<dynamic>") = false)
    (hfind : env.aliases.find? (fun p => p.1 == id) = some e)
    (hok : from_descriptor env (.name (some id)) kwargs = .ok (m, w)) :
    m.model_identifier = e.2 ∧
      from_descriptor env (.name (some id)) kwargs
        = resolve_string env e.2 kwargs := by
  have hd : from_descriptor env (.name (some id)) kwargs
      = resolve_string env e.2 kwargs := by
    simp only [from_descriptor, hdyn, Bool.false_eq_true, if_false,
      aliasResolve, hfind]
  refine ⟨?_, hd⟩
  rw [hd] at hok
  exact (resolve_string_fields env e.2 kwargs m w hok).1

/-- C1 amended-claim witness at a concrete alias-table entry. -/
theorem alias_resolved_identifier_stored_witness :
    (⟨"openai/gpt", .openai "gpt" none [], ""⟩ : LLM).model_identifier
        = (("chat", "openai/gpt") : String × String).2 ∧
      from_descriptor ⟨[("chat", "openai/gpt")], fun _ => false, Sum.inl "x"⟩
          (.name (some "chat")) []
        = resolve_string ⟨[("chat", "openai/gpt")], fun _ => false, Sum.inl "x"⟩
            "openai/gpt" [] :=
  alias_resolved_identifier_stored
    ⟨[("chat", "openai/gpt")], fun _ => false, Sum.inl "x"⟩
    "chat" ("chat", "openai/gpt") []
    ⟨"openai/gpt", .openai "gpt" none [], ""⟩ [] rfl rfl rfl

/-- C6: for identifier "random" (not itself an alias-table key) and every
combination of caller options, the options handed to the in-process
adapter constructor contain `inprocess=true` and `async_transport=true`,
and `tokenizer` equals the caller's `vocab` option when supplied, else the
fixed default "gpt2". -/
theorem random_forces_options (env : ResolveEnv) (kwargs : Opts)
    (hal : env.aliases.find? (fun p => p.1 == "random") = none) :
    from_descriptor env (.name (some "random")) kwargs
      = .ok (⟨"random",
              .inprocessLocal "random"
                (randomKwargs (popOpt kwargs "endpoint").2),
              renderOpts kwargs⟩, []) ∧
    getOpt (randomKwargs (popOpt kwargs "endpoint").2) "inprocess"
      = some (.bool true) ∧
    getOpt (randomKwargs (popOpt kwargs "endpoint").2) "async_transport"
      = some (.bool true) ∧
    getOpt (randomKwargs (popOpt kwargs "endpoint").2) "tokenizer"
      = some ((getOpt kwargs "vocab").getD (.str "gpt2")) := by
  have hip : ∀ o : Opts, getOpt (randomKwargs o) "inprocess"
      = some (.bool true) := by
    intro o
    unfold randomKwargs
    rw [getOpt_setOpt_ne _ _ _ _ (by decide), getOpt_setOpt_self]
  have hasync : ∀ o : Opts, getOpt (randomKwargs o) "async_transport"
      = some (.bool true) := by
    intro o
    unfold randomKwargs
    rw [getOpt_setOpt_self]
  have htok : ∀ o : Opts, getOpt (randomKwargs o) "tokenizer"
      = some ((getOpt o "vocab").getD (.str "gpt2")) := by
    intro o
    unfold randomKwargs
    rw [getOpt_setOpt_ne _ _ _ _ (by decide),
      getOpt_setOpt_ne _ _ _ _ (by decide), getOpt_setOpt_self]
    cases getOpt o "vocab" <;> rfl
  have hvocab : getOpt (popOpt kwargs "endpoint").2 "vocab"
      = getOpt kwargs "vocab" := by
    simp only [popOpt]
    exact getOpt_filter_ne kwargs "vocab" "endpoint" (by decide)
  refine ⟨?_, hip _, hasync _, (htok _).trans (by rw [hvocab])⟩
  have htr : truthyOpt (getOpt
      (randomKwargs (kwargs.filter (fun p => p.1 != "endpoint")))
      "inprocess") = true := by
    rw [hip]
    rfl
  have h1 : (("random" : String) == "<dynamic>") = false := rfl
  have h2 : strStarts "random" "openai/" = false := rfl
  have h3 : strStarts "random" "llama.cpp:" = false := rfl
  have h4 : strStarts "random" "local:" = false := rfl
  have h5 : (("random" : String) == "random") = true := rfl
  simp only [from_descriptor, h1, Bool.false_eq_true, if_false, aliasResolve,
    hal, resolve_string, popOpt, h2, h3, h4, h5, if_true, llamaAdjust, htr]

/-- C6 witness: resolving "random" with a caller-supplied vocab. -/
theorem random_forces_options_witness :
    from_descriptor ⟨[], fun _ => false, Sum.inl "x"⟩ (.name (some "random"))
        [("vocab", .str "v1"), ("seed", .str "123")]
      = .ok (⟨"random",
              .inprocessLocal "random"
                (randomKwargs (popOpt [("vocab", .str "v1"), ("seed", .str "123")]
                  "endpoint").2),
              renderOpts [("vocab", .str "v1"), ("seed", .str "123")]⟩, []) ∧
    getOpt (randomKwargs (popOpt [("vocab", .str "v1"), ("seed", .str "123")]
        "endpoint").2) "inprocess" = some (.bool true) ∧
    getOpt (randomKwargs (popOpt [("vocab", .str "v1"), ("seed", .str "123")]
        "endpoint").2) "async_transport" = some (.bool true) ∧
    getOpt (randomKwargs (popOpt [("vocab", .str "v1"), ("seed", .str "123")]
        "endpoint").2) "tokenizer"
      = some ((getOpt [("vocab", .str "v1"), ("seed", .str "123")] "vocab").getD
          (.str "gpt2")) :=
  random_forces_options ⟨[], fun _ => false, Sum.inl "x"⟩
    [("vocab", .str "v1"), ("seed", .str "123")] rfl

/-- C7: for a `llama.cpp:` identifier with no caller-supplied tokenizer
whose derived candidate tokenizer path does not exist, resolution emits
the (single, non-fatal) warning, sets tokenizer to the fixed default
"huggyllama/llama-7b", and continues to a successful handle; and the
endpoint defaults to "localhost:8080" when the caller supplied none. -/
theorem llamacpp_tokenizer_fallback (env : ResolveEnv) (id : String)
    (kwargs : Opts)
    (hpre : strStarts id "llama.cpp:" = true)
    (hdyn : (id == "<dynamic>") = false)
    (hopenai : strStarts id "openai/" = false)
    (hrandom : (id == "random") = false)
    (hlocal : strStarts id "local:" = false)
    (hal : env.aliases.find? (fun p => p.1 == id) = none)
    (htok : getOpt kwargs "tokenizer" = none)
    (hep : getOpt kwargs "endpoint" = none)
    (hinp : getOpt kwargs "inprocess" = none)
    (hfs : env.fsExists (llamaTokenizerCandidate id) = false) :
    from_descriptor env (.name (some id)) kwargs
      = .ok (⟨id,
              .lmtpRemote id (.str "localhost:8080")
                (setOpt (popOpt kwargs "endpoint").2 "tokenizer"
                  (.str "huggyllama/llama-7b")),
              renderOpts kwargs⟩, [llamaWarning]) ∧
    getOpt (setOpt (popOpt kwargs "endpoint").2 "tokenizer"
        (.str "huggyllama/llama-7b")) "tokenizer"
      = some (.str "huggyllama/llama-7b") := by
  refine ⟨?_, getOpt_setOpt_self _ _ _⟩
  have htok1 : getOpt (kwargs.filter (fun p => p.1 != "endpoint"))
      "tokenizer" = none := by
    rw [getOpt_filter_ne kwargs "tokenizer" "endpoint" (by decide)]
    exact htok
  have hinp1 : truthyOpt (getOpt
      (setOpt (kwargs.filter (fun p => p.1 != "endpoint")) "tokenizer"
        (.str "huggyllama/llama-7b")) "inprocess") = false := by
    rw [getOpt_setOpt_ne _ _ _ _ (by decide)]
    rw [getOpt_filter_ne kwargs "inprocess" "endpoint" (by decide)]
    rw [hinp]
    rfl
  simp only [from_descriptor, hdyn, Bool.false_eq_true, if_false,
    aliasResolve, hal, resolve_string, popOpt, hopenai, hrandom, hlocal,
    hpre, llamaAdjust, htok1, hfs, hep, hinp1, if_true,
    Option.isSome_none, Option.getD_none]

/-- C7 witness: the spec's end-to-end scenario B. -/
theorem llamacpp_tokenizer_fallback_witness :
    from_descriptor ⟨[], fun _ => false, Sum.inl "x"⟩
        (.name (some "llama.cpp:/models/x/weights.bin")) []
      = .ok (⟨"llama.cpp:/models/x/weights.bin",
              .lmtpRemote "llama.cpp:/models/x/weights.bin"
                (.str "localhost:8080")
                (setOpt (popOpt ([] : Opts) "endpoint").2 "tokenizer"
                  (.str "huggyllama/llama-7b")),
              renderOpts ([] : Opts)⟩, [llamaWarning]) ∧
    getOpt (setOpt (popOpt ([] : Opts) "endpoint").2 "tokenizer"
        (.str "huggyllama/llama-7b")) "tokenizer"
      = some (.str "huggyllama/llama-7b") :=
  llamacpp_tokenizer_fallback ⟨[], fun _ => false, Sum.inl "x"⟩
    "llama.cpp:/models/x/weights.bin" [] rfl rfl rfl rfl rfl rfl rfl rfl rfl rfl

/-! ## Claim theorems: the generation backend -/

/-- C2: the stopping-criterion wrapper around a caller-supplied streamer
always answers "do not stop" and only forwards the step state to the
streamer; consequently the deterministic decoding loop generates exactly
the same token sequence (hence the same number of tokens) with the
wrapped observer as with no observer at all. -/
theorem streamer_never_changes_generation {σ τ : Type}
    (next : List ℕ → ℕ × List ℝ) (eos : ℕ)
    (streamer : List ℕ → List ℝ → σ → σ)
    (n : ℕ) (ids : List ℕ) (s0 : σ) (t0 : τ) :
    (∀ i sc s, (disguisedCriterion streamer i sc s).2 = false) ∧
    (∀ i sc s, (disguisedCriterion streamer i sc s).1 = streamer i sc s) ∧
    (decodeLoop next eos (disguisedCriterion streamer) n ids s0).1
      = (decodeLoop next eos (fun _ _ t => (t, false)) n ids t0).1 := by
  refine ⟨fun _ _ _ => rfl, fun _ _ _ => rfl, ?_⟩
  induction n generalizing ids s0 t0 with
  | zero => rfl
  | succ n ih =>
    simp only [decodeLoop, disguisedCriterion, Bool.false_or]
    by_cases h : ((next ids).1 == eos) = true
    · simp [h]
    · simp only [h, if_false, Bool.false_eq_true]
      exact ih _ _ _

theorem make_bias_tensor_length (b : List (ℕ × ℝ)) (V : ℕ) :
    (make_bias_tensor b V).length = V := by
  simp [make_bias_tensor]

theorem make_bias_tensor_getD (b : List (ℕ × ℝ)) (V i : ℕ) (hi : i < V) :
    (make_bias_tensor b V).getD i 1
      = ((b.find? (fun p => p.1 == i)).map Prod.snd).getD 0 := by
  rw [List.getD_eq_getElem _ _ (by rw [make_bias_tensor_length]; exact hi)]
  simp only [make_bias_tensor, List.getElem_map, List.getElem_range]
  cases b.find? (fun p => p.1 == i) <;> rfl

/-- Once the bias tensor is built, every further step reuses it and the
build counter never moves again. -/
theorem runSteps_built (b : List (ℕ × ℝ)) (t : List ℝ) (c : ℕ) :
    ∀ steps : List (List (List ℝ)),
      (runSteps b steps ⟨some t, c⟩).1 = ⟨some t, c⟩ ∧
      (runSteps b steps ⟨some t, c⟩).2
        = steps.map (fun sc => sc.map
            (fun row => logSoftmax (row.zipWith (fun a b => a + b) t)))
  | [] => ⟨rfl, rfl⟩
  | sc :: rest => by
    have ih := runSteps_built b t c rest
    simp only [runSteps, processorCall, List.map_cons]
    exact ⟨ih.1, by rw [ih.2]⟩

/-- C3: across an N-step, B-batch generation call (N ≥ 1) with a non-empty
bias set, the dense bias tensor — length vocab, holding the supplied
adjustment at biased ids and 0.0 elsewhere — is built exactly once, on the
first step, and the very same tensor is reused at every subsequent step
and batch element. -/
theorem bias_tensor_built_once (logit_biases : List (ℕ × ℝ))
    (first : List (List ℝ)) (rest : List (List (List ℝ)))
    (hbias : logit_biases ≠ []) :
    (runSteps logit_biases (first :: rest) ⟨none, 0⟩).1.builds = 1 ∧
    (runSteps logit_biases (first :: rest) ⟨none, 0⟩).1.bias_tensors
      = some (make_bias_tensor logit_biases (first.headD []).length) ∧
    (runSteps logit_biases (first :: rest) ⟨none, 0⟩).2
      = (first :: rest).map (fun sc => sc.map (fun row =>
          logSoftmax (row.zipWith (fun a b => a + b)
            (make_bias_tensor logit_biases (first.headD []).length)))) ∧
    (make_bias_tensor logit_biases (first.headD []).length).length
      = (first.headD []).length ∧
    (∀ i, i < (first.headD []).length →
      (make_bias_tensor logit_biases (first.headD []).length).getD i 1
        = ((logit_biases.find? (fun p => p.1 == i)).map Prod.snd).getD 0) := by
  have hb := runSteps_built logit_biases
    (make_bias_tensor logit_biases (first.headD []).length) 1 rest
  refine ⟨?_, ?_, ?_, make_bias_tensor_length _ _,
    fun i hi => make_bias_tensor_getD _ _ i hi⟩
  · simp only [runSteps, processorCall]
    rw [hb.1]
  · simp only [runSteps, processorCall]
    rw [hb.1]
  · simp only [runSteps, processorCall, List.map_cons]
    rw [hb.2]

/-- C3 witness: a one-step, one-batch-element call with one biased id. -/
theorem bias_tensor_built_once_witness :
    (runSteps [(0, (1 : ℝ))] ([[(0 : ℝ)]] :: []) ⟨none, 0⟩).1.builds = 1 ∧
    (runSteps [(0, (1 : ℝ))] ([[(0 : ℝ)]] :: []) ⟨none, 0⟩).1.bias_tensors
      = some (make_bias_tensor [(0, (1 : ℝ))]
          (([[(0 : ℝ)]] : List (List ℝ)).headD []).length) ∧
    (runSteps [(0, (1 : ℝ))] ([[(0 : ℝ)]] :: []) ⟨none, 0⟩).2
      = ([[(0 : ℝ)]] :: []).map (fun sc => sc.map (fun row =>
          logSoftmax (row.zipWith (fun a b => a + b)
            (make_bias_tensor [(0, (1 : ℝ))]
              (([[(0 : ℝ)]] : List (List ℝ)).headD []).length)))) ∧
    (make_bias_tensor [(0, (1 : ℝ))]
        (([[(0 : ℝ)]] : List (List ℝ)).headD []).length).length
      = (([[(0 : ℝ)]] : List (List ℝ)).headD []).length ∧
    (∀ i, i < (([[(0 : ℝ)]] : List (List ℝ)).headD []).length →
      (make_bias_tensor [(0, (1 : ℝ))]
          (([[(0 : ℝ)]] : List (List ℝ)).headD []).length).getD i 1
        = (([(0, (1 : ℝ))].find? (fun p => p.1 == i)).map Prod.snd).getD 0) :=
  bias_tensor_built_once [(0, (1 : ℝ))] [[(0 : ℝ)]] []
    (List.cons_ne_nil _ _)

/-- C10: with an empty bias set the backend installs no logits processor
at all and the step scores pass through unmodified; with a non-empty bias
set the single installed processor rewrites each step-score row to
log_softmax(row + bias tensor). -/
theorem empty_bias_leaves_scores_unmodified (scores : List (List ℝ))
    (logit_biases : List (ℕ × ℝ)) (hbias : logit_biases ≠ []) :
    logits_processors ([] : List (ℕ × ℝ)) = [] ∧
    (applyProcessors (logits_processors ([] : List (ℕ × ℝ))) scores).2
      = scores ∧
    (applyProcessors (logits_processors logit_biases) scores).2
      = scores.map (fun row => logSoftmax (row.zipWith (fun a b => a + b)
          (make_bias_tensor logit_biases (scores.headD []).length))) := by
  refine ⟨rfl, rfl, ?_⟩
  have hlen : (logit_biases.length = 0) = False := by simp [hbias]
  simp only [logits_processors, hlen, if_false, applyProcessors,
    processorCall]

/-- C10 witness: one step with one biased id versus the empty bias set. -/
theorem empty_bias_leaves_scores_unmodified_witness :
    logits_processors ([] : List (ℕ × ℝ)) = [] ∧
    (applyProcessors (logits_processors ([] : List (ℕ × ℝ)))
        [[(1 : ℝ)]]).2 = [[(1 : ℝ)]] ∧
    (applyProcessors (logits_processors [(0, (2 : ℝ))]) [[(1 : ℝ)]]).2
      = ([[(1 : ℝ)]] : List (List ℝ)).map (fun row =>
          logSoftmax (row.zipWith (fun a b => a + b)
            (make_bias_tensor [(0, (2 : ℝ))]
              (([[(1 : ℝ)]] : List (List ℝ)).headD []).length))) :=
  empty_bias_leaves_scores_unmodified [[(1 : ℝ)]] [(0, (2 : ℝ))]
    (List.cons_ne_nil _ _)

/-- C4: `score` returns one row per input sequence, shape-compatible with
the input; position 0 of every row is exactly 0.0 and every position i in
1..n-1 holds the log-softmax-normalized log-probability the model assigned
to the actually-observed token at position i — all derived from the single
forward pass of the model over the entire batch, on which alone the result
depends. -/
theorem score_positions (model : List (List ℕ) → List (List (List ℝ)))
    (input_ids : List (List ℕ))
    (hn : (model input_ids).length = input_ids.length)
    (hrow : ∀ s, ((model input_ids).getD s []).length
      = (input_ids.getD s []).length) :
    (score model input_ids).length = input_ids.length ∧
    (∀ model' : List (List ℕ) → List (List (List ℝ)),
      model' input_ids = model input_ids →
      score model' input_ids = score model input_ids) ∧
    (∀ s, s < input_ids.length →
      ((score model input_ids).getD s []).length
        = max (input_ids.getD s []).length 1) ∧
    (∀ s, s < input_ids.length →
      ((score model input_ids).getD s []).getD 0 1 = 0) ∧
    (∀ s i, s < input_ids.length → 1 ≤ i →
      i < (input_ids.getD s []).length →
      ((score model input_ids).getD s []).getD i 0
        = (logSoftmax (((model input_ids).getD s []).getD (i - 1) [])).getD
            ((input_ids.getD s []).getD i 0) 0) := by
  have hsl : (score model input_ids).length = input_ids.length := by
    simp [score, hn]
  have key : ∀ s, s < input_ids.length →
      (score model input_ids).getD s []
        = scoreRow (input_ids.getD s []) ((model input_ids).getD s []) := by
    intro s hs
    have h1 : s < (score model input_ids).length := by rw [hsl]; exact hs
    rw [List.getD_eq_getElem _ _ h1]
    simp only [score, List.getElem_map, List.getElem_zip]
    rw [List.getD_eq_getElem _ _ hs,
      List.getD_eq_getElem _ _ (by rw [hn]; exact hs)]
  refine ⟨hsl, ?_, ?_, ?_, ?_⟩
  · intro model' h
    simp only [score, h]
  · intro s hs
    rw [key s hs]
    simp only [scoreRow, List.length_cons, List.length_map, List.length_zip,
      List.length_dropLast, List.length_tail, hrow s]
    omega
  · intro s hs
    rw [key s hs]
    rfl
  · intro s i hs h1 h2
    rw [key s hs]
    have hl : ((model input_ids).getD s []).length
        = (input_ids.getD s []).length := hrow s
    obtain ⟨j, rfl⟩ : ∃ j, i = j + 1 := ⟨i - 1, by omega⟩
    simp only [scoreRow, List.getD_cons_succ, Nat.add_sub_cancel]
    have hj : j < (((((model input_ids).getD s []).dropLast.map
        logSoftmax).zip (input_ids.getD s []).tail).map
          (fun q => q.1.getD q.2 0)).length := by
      simp only [List.length_map, List.length_zip, List.length_dropLast,
        List.length_tail, hl]
      omega
    rw [List.getD_eq_getElem _ _ hj]
    simp only [List.getElem_map, List.getElem_zip, List.getElem_dropLast,
      List.getElem_tail]
    rw [List.getD_eq_getElem _ _ (by omega : j < ((model input_ids).getD s
        []).length),
      List.getD_eq_getElem _ _ (by omega : j + 1 < (input_ids.getD s
        []).length)]

/-- C4 witness: a single two-token sequence against a constant forward
pass with two positions and a two-token vocabulary. -/
theorem score_positions_witness :
    (score (fun _ => [[[(0 : ℝ), 0], [0, 0]]]) [[0, 1]]).length
        = ([[0, 1]] : List (List ℕ)).length ∧
    (∀ model' : List (List ℕ) → List (List (List ℝ)),
      model' [[0, 1]] = (fun _ => [[[(0 : ℝ), 0], [0, 0]]]) [[0, 1]] →
      score model' [[0, 1]]
        = score (fun _ => [[[(0 : ℝ), 0], [0, 0]]]) [[0, 1]]) ∧
    (∀ s, s < ([[0, 1]] : List (List ℕ)).length →
      ((score (fun _ => [[[(0 : ℝ), 0], [0, 0]]]) [[0, 1]]).getD s
          []).length
        = max (([[0, 1]] : List (List ℕ)).getD s []).length 1) ∧
    (∀ s, s < ([[0, 1]] : List (List ℕ)).length →
      ((score (fun _ => [[[(0 : ℝ), 0], [0, 0]]]) [[0, 1]]).getD s
          []).getD 0 1 = 0) ∧
    (∀ s i, s < ([[0, 1]] : List (List ℕ)).length → 1 ≤ i →
      i < (([[0, 1]] : List (List ℕ)).getD s []).length →
      ((score (fun _ => [[[(0 : ℝ), 0], [0, 0]]]) [[0, 1]]).getD s
          []).getD i 0
        = (logSoftmax ((((fun _ => [[[(0 : ℝ), 0], [0, 0]]]) [[0, 1]]).getD
              s []).getD (i - 1) [])).getD
            ((([[0, 1]] : List (List ℕ)).getD s []).getD i 0) 0) :=
  score_positions (fun _ => [[[(0 : ℝ), 0], [0, 0]]]) [[0, 1]] rfl
    (fun s => by cases s <;> rfl)

example : strStarts "openai/gpt" "openai/" = true := by decide
example : strDrop "openai/gpt" 7 = "gpt" := by decide
example : strReplace "llama.cpp:/models/x/weights.bin" "llama.cpp:" "" = "/models/x/weights.bin" := by decide
example : dirname "/models/x/weights.bin" = "/models/x" := by decide
example : llamaTokenizerCandidate "llama.cpp:/models/x/weights.bin" = "/models/x/tokenizer.model" := by decide
example : renderOpts [("a", .str "1"), ("b", .bool true)] = "a=1, b=True" := by decide
example : from_descriptor ⟨[("a", "b")], fun _ => false, Sum.inl "x"⟩ (.name (some "a")) []
    = .ok (⟨"b", .lmtpRemote "b" (.str "localhost:8080") [], ""⟩, []) := rfl

example : from_descriptor ⟨[], fun _ => false, Sum.inl "x"⟩ (.name (some "local:foo"))
      [("a", .str "1"), ("endpoint", .str "h:1")]
    = .ok (⟨"local:foo", .inprocessLocal "foo" [("a", .str "1"), ("inprocess", .bool true)],
        "a=1, endpoint=h:1"⟩, []) := rfl

example : from_descriptor ⟨[], fun _ => false, Sum.inl "x"⟩ (.name (some "random"))
      [("vocab", .str "v1"), ("seed", .str "123")]
    = .ok (⟨"random", .inprocessLocal "random"
        [("vocab", .str "v1"), ("seed", .str "123"), ("tokenizer", .str "v1"),
         ("inprocess", .bool true), ("async_transport", .bool true)],
        "vocab=v1, seed=123"⟩, []) := rfl

example : from_descriptor ⟨[], fun _ => false, Sum.inl "x"⟩
      (.name (some "llama.cpp:/models/x/weights.bin")) []
    = .ok (⟨"llama.cpp:/models/x/weights.bin",
        .lmtpRemote "llama.cpp:/models/x/weights.bin" (.str "localhost:8080")
          [("tokenizer", .str "huggyllama/llama-7b")], ""⟩, [llamaWarning]) := rfl

example : from_descriptor ⟨[("chat", "openai/gpt")], fun _ => false, Sum.inl "x"⟩
      (.name (some "chat")) []
    = .ok (⟨"openai/gpt", .openai "gpt" none [], ""⟩, []) := rfl

end Lmql
